import Mathlib

/-!
Verification of the `keychain-lockscreen-credentials` credential vault.

The development shallowly embeds the app's storage core:

* `src/services/StorageService.js` — the MMKV metadata mirror / item index
  and the keychain-backed protected secret store
  (`saveCredential`, `getCredential`, `deleteCredential`, `updateCredential`,
  `getItemsList`, `saveItemsList`);
* the `LockscreenUtils.authenticateWithLockscreen` challenge
  (second source chunk of `App.tsx`);
* the confirmed branch of `clearAllData` in `src/screens/SettingsScreen.js`.

The world state carries the MMKV key-value store (strings to strings, as the
real store does), the keychain (service name to stored entry), an oracle of
outcomes for the fallible keychain primitives (success, resolve-to-false,
thrown exception), a clock stream for `new Date()`, and observation logs for
interactive challenges and for reads issued with an authentication prompt
attached.  `JSON.stringify` / `JSON.parse` are modelled concretely on the two
shapes the app stores (arrays of strings, and its metadata objects), with
proved round trips.
-/

set_option maxHeartbeats 1000000

deriving instance DecidableEq for Except

namespace LockVault

/-! ### JSON fragment codec

`JSON.stringify` escapes `"` and `\`, writes the five named control escapes,
and writes other control characters as `\u00XX`; everything else is copied
verbatim.  The parser below inverts exactly this output format (the app only
ever parses strings it has itself stringified; any other stored string that
this grammar rejects is modelled as a `JSON.parse` exception). -/

def hexLowerChar (n : Nat) : Char :=
  if n < 10 then Char.ofNat (48 + n) else Char.ofNat (87 + n)

def parseHexDigitChar (c : Char) : Option Nat :=
  if 48 ≤ c.toNat ∧ c.toNat ≤ 57 then some (c.toNat - 48)
  else if 97 ≤ c.toNat ∧ c.toNat ≤ 102 then some (c.toNat - 87)
  else if 65 ≤ c.toNat ∧ c.toNat ≤ 70 then some (c.toNat - 55)
  else none

def escapeChar (c : Char) : List Char :=
  if c = '"' then ['\\', '"']
  else if c = '\\' then ['\\', '\\']
  else if c = '\x08' then ['\\', 'b']
  else if c = '\x0c' then ['\\', 'f']
  else if c = '\n' then ['\\', 'n']
  else if c = '\r' then ['\\', 'r']
  else if c = '\t' then ['\\', 't']
  else if c.toNat < 32 then
    ['\\', 'u', '0', '0', hexLowerChar (c.toNat / 16), hexLowerChar (c.toNat % 16)]
  else [c]

def encodeStringChars (s : String) : List Char :=
  '"' :: (s.data.map escapeChar).flatten ++ ['"']

/-- Parse the body of a JSON string (the opening quote already consumed),
returning the decoded characters and the input after the closing quote.
The fuel argument only forces structural recursion; it is always given
larger than the number of decoded characters. -/
def parseJStrAuxF : Nat → List Char → Option (List Char × List Char)
  | 0, _ => none
  | _ + 1, [] => none
  | fuel + 1, c :: rest =>
    if c = '"' then some ([], rest)
    else if c = '\\' then
      match rest with
      | [] => none
      | e :: rest2 =>
        if e = '"' then (parseJStrAuxF fuel rest2).map (fun p => ('"' :: p.1, p.2))
        else if e = '\\' then (parseJStrAuxF fuel rest2).map (fun p => ('\\' :: p.1, p.2))
        else if e = 'b' then (parseJStrAuxF fuel rest2).map (fun p => ('\x08' :: p.1, p.2))
        else if e = 'f' then (parseJStrAuxF fuel rest2).map (fun p => ('\x0c' :: p.1, p.2))
        else if e = 'n' then (parseJStrAuxF fuel rest2).map (fun p => ('\n' :: p.1, p.2))
        else if e = 'r' then (parseJStrAuxF fuel rest2).map (fun p => ('\r' :: p.1, p.2))
        else if e = 't' then (parseJStrAuxF fuel rest2).map (fun p => ('\t' :: p.1, p.2))
        else if e = 'u' then
          match rest2 with
          | d1 :: d2 :: d3 :: d4 :: rest3 =>
            match parseHexDigitChar d1, parseHexDigitChar d2,
                parseHexDigitChar d3, parseHexDigitChar d4 with
            | some a, some b, some c2, some d =>
              (parseJStrAuxF fuel rest3).map
                (fun p => (Char.ofNat (((a * 16 + b) * 16 + c2) * 16 + d) :: p.1, p.2))
            | _, _, _, _ => none
          | _ => none
        else none
    else (parseJStrAuxF fuel rest).map (fun p => (c :: p.1, p.2))

/-- JSON string-body parsing with enough fuel for its input. -/
def parseJStr (l : List Char) : Option (List Char × List Char) :=
  parseJStrAuxF (l.length + 1) l

theorem hexDigit_round (x : Nat) (h : x < 16) :
    parseHexDigitChar (hexLowerChar x) = some x := by
  interval_cases x <;> decide

theorem parse_u_escape (c : Char) (h : c.toNat < 32) (fuel : Nat) (tail : List Char) :
    parseJStrAuxF (fuel + 1) ('\\' :: 'u' :: '0' :: '0' ::
        hexLowerChar (c.toNat / 16) :: hexLowerChar (c.toNat % 16) :: tail) =
      (parseJStrAuxF fuel tail).map (fun p => (c :: p.1, p.2)) := by
  have hdiv : c.toNat / 16 < 16 := by omega
  have hmod : c.toNat % 16 < 16 := by omega
  have h0 : parseHexDigitChar '0' = some 0 := by decide
  have harith : ((0 * 16 + 0) * 16 + c.toNat / 16) * 16 + c.toNat % 16 = c.toNat := by
    omega
  rw [parseJStrAuxF.eq_def]
  simp only [Char.reduceEq, reduceIte, h0, hexDigit_round _ hdiv, hexDigit_round _ hmod]
  rw [harith, Char.ofNat_toNat]

theorem parseJStrAuxF_round (cs : List Char) (rest : List Char) (fuel : Nat)
    (h : cs.length < fuel) :
    parseJStrAuxF fuel ((cs.map escapeChar).flatten ++ '"' :: rest) = some (cs, rest) := by
  induction cs generalizing rest fuel with
  | nil =>
    obtain ⟨f, rfl⟩ : ∃ f, fuel = f + 1 := ⟨fuel - 1, by omega⟩
    rw [List.map_nil, List.flatten_nil, List.nil_append, parseJStrAuxF.eq_def]
    simp [Char.reduceEq]
  | cons c cs ih =>
    obtain ⟨f, rfl⟩ : ∃ f, fuel = f + 1 := ⟨fuel - 1, by omega⟩
    have hf : cs.length < f := by simp at h; omega
    rw [List.map_cons, List.flatten_cons, List.append_assoc]
    by_cases h1 : c = '\"'
    · subst h1
      rw [escapeChar]
      simp only [Char.reduceEq, reduceIte, List.cons_append, List.nil_append]
      rw [parseJStrAuxF.eq_def]
      simp only [Char.reduceEq, reduceIte]
      rw [ih _ _ hf]; rfl
    by_cases h2 : c = '\\'
    · subst h2
      rw [escapeChar]
      simp only [Char.reduceEq, reduceIte, List.cons_append, List.nil_append]
      rw [parseJStrAuxF.eq_def]
      simp only [Char.reduceEq, reduceIte]
      rw [ih _ _ hf]; rfl
    by_cases h3 : c = '\x08'
    · subst h3
      rw [escapeChar]
      simp only [Char.reduceEq, reduceIte, List.cons_append, List.nil_append]
      rw [parseJStrAuxF.eq_def]
      simp only [Char.reduceEq, reduceIte]
      rw [ih _ _ hf]; rfl
    by_cases h4 : c = '\x0c'
    · subst h4
      rw [escapeChar]
      simp only [Char.reduceEq, reduceIte, List.cons_append, List.nil_append]
      rw [parseJStrAuxF.eq_def]
      simp only [Char.reduceEq, reduceIte]
      rw [ih _ _ hf]; rfl
    by_cases h5 : c = '\n'
    · subst h5
      rw [escapeChar]
      simp only [Char.reduceEq, reduceIte, List.cons_append, List.nil_append]
      rw [parseJStrAuxF.eq_def]
      simp only [Char.reduceEq, reduceIte]
      rw [ih _ _ hf]; rfl
    by_cases h6 : c = '\r'
    · subst h6
      rw [escapeChar]
      simp only [Char.reduceEq, reduceIte, List.cons_append, List.nil_append]
      rw [parseJStrAuxF.eq_def]
      simp only [Char.reduceEq, reduceIte]
      rw [ih _ _ hf]; rfl
    by_cases h7 : c = '\t'
    · subst h7
      rw [escapeChar]
      simp only [Char.reduceEq, reduceIte, List.cons_append, List.nil_append]
      rw [parseJStrAuxF.eq_def]
      simp only [Char.reduceEq, reduceIte]
      rw [ih _ _ hf]; rfl
    by_cases h8 : c.toNat < 32
    · rw [escapeChar, if_neg h1, if_neg h2, if_neg h3, if_neg h4, if_neg h5, if_neg h6,
        if_neg h7, if_pos h8]
      simp only [List.cons_append, List.nil_append]
      rw [parse_u_escape c h8, ih _ _ hf]
      rfl
    · rw [escapeChar, if_neg h1, if_neg h2, if_neg h3, if_neg h4, if_neg h5, if_neg h6,
        if_neg h7, if_neg h8]
      simp only [List.cons_append, List.nil_append]
      rw [parseJStrAuxF.eq_def]
      simp only []
      rw [if_neg h1, if_neg h2, ih _ _ hf]
      rfl

theorem length_le_escape_flatten (cs : List Char) :
    cs.length ≤ ((cs.map escapeChar).flatten).length := by
  induction cs with
  | nil => simp
  | cons c cs ih =>
    rw [List.map_cons, List.flatten_cons, List.length_append]
    have h1 : 1 ≤ (escapeChar c).length := by
      rw [escapeChar]; split_ifs <;> simp
    simp only [List.length_cons]
    omega

theorem parseJStr_round (cs : List Char) (rest : List Char) :
    parseJStr ((cs.map escapeChar).flatten ++ '"' :: rest) = some (cs, rest) := by
  rw [parseJStr]
  apply parseJStrAuxF_round
  have h1 := length_le_escape_flatten cs
  simp only [List.length_append, List.length_cons]
  omega

/-! ### Arrays of strings: the `itemsList` serialization -/

def encodeItemsRest : List String → List Char
  | [] => [']']
  | s :: rest => ',' :: encodeStringChars s ++ encodeItemsRest rest

def encodeItemsStart : List String → List Char
  | [] => [']']
  | s :: rest => encodeStringChars s ++ encodeItemsRest rest

/-- `JSON.stringify` of an array of strings. -/
def stringifyItems (l : List String) : String :=
  String.mk ('[' :: encodeItemsStart l)

/-- Parse the elements after the first element of an array, expecting `,`
separators or the closing `]`. -/
def parseItemsRest : Nat → List Char → Option (List String × List Char)
  | _, [] => none
  | fuel, c :: rest =>
    if c = ']' then some ([], rest)
    else if c = ',' then
      match rest with
      | [] => none
      | c2 :: r1 =>
        if c2 = '"' then
          match fuel with
          | 0 => none
          | Nat.succ fuel2 =>
            match parseJStr r1 with
            | some (cs, r2) =>
              match parseItemsRest fuel2 r2 with
              | some (more, r3) => some (String.mk cs :: more, r3)
              | none => none
            | none => none
        else none
    else none

/-- Parse an array body right after the opening `[`. -/
def parseItemsStart (fuel : Nat) : List Char → Option (List String × List Char)
  | [] => none
  | c :: rest =>
    if c = ']' then some ([], rest)
    else if c = '"' then
      match parseJStr rest with
      | some (cs, r2) =>
        match parseItemsRest fuel r2 with
        | some (more, r3) => some (String.mk cs :: more, r3)
        | none => none
      | none => none
    else none

/-- `JSON.parse` restricted to the array-of-strings grammar the app stores
under `itemsList`; `none` models a thrown `SyntaxError`. -/
def parseItems (s : String) : Option (List String) :=
  match s.data with
  | [] => none
  | c :: rest =>
    if c = '[' then
      match parseItemsStart s.data.length rest with
      | some (items, []) => some items
      | _ => none
    else none

theorem encodeStringChars_eq (s : String) :
    encodeStringChars s = '"' :: ((s.data.map escapeChar).flatten ++ '"' :: []) := rfl

theorem mk_data (s : String) : String.mk s.data = s := rfl

theorem parseItemsRest_round (l : List String) (rest : List Char) (fuel : Nat)
    (h : l.length ≤ fuel) :
    parseItemsRest fuel (encodeItemsRest l ++ rest) = some (l, rest) := by
  induction l generalizing rest fuel with
  | nil =>
    rw [encodeItemsRest, List.cons_append, List.nil_append, parseItemsRest.eq_def]
    simp [Char.reduceEq]
  | cons s l ih =>
    cases fuel with
    | zero => simp at h
    | succ fuel =>
      have h2 : l.length ≤ fuel := by simp at h; omega
      rw [encodeItemsRest, encodeStringChars_eq]
      simp only [List.cons_append, List.append_assoc, List.nil_append]
      rw [parseItemsRest.eq_def]
      simp only [Char.reduceEq, reduceIte]
      simp only [parseJStr_round s.data (encodeItemsRest l ++ rest)]
      simp only [ih rest fuel h2, mk_data]

theorem parseItemsStart_round (l : List String) (rest : List Char) (fuel : Nat)
    (h : l.length ≤ fuel + 1) :
    parseItemsStart fuel (encodeItemsStart l ++ rest) = some (l, rest) := by
  cases l with
  | nil =>
    rw [encodeItemsStart, List.cons_append, List.nil_append, parseItemsStart.eq_def]
    simp [Char.reduceEq]
  | cons s l =>
    have h2 : l.length ≤ fuel := by simp at h; omega
    rw [encodeItemsStart, encodeStringChars_eq]
    simp only [List.cons_append, List.append_assoc, List.nil_append]
    rw [parseItemsStart.eq_def]
    simp only [Char.reduceEq, reduceIte]
    simp only [parseJStr_round s.data (encodeItemsRest l ++ rest)]
    simp only [parseItemsRest_round l rest fuel h2, mk_data]

theorem length_le_encodeItemsRest (l : List String) :
    l.length ≤ (encodeItemsRest l).length := by
  induction l with
  | nil => simp [encodeItemsRest]
  | cons s l ih =>
    rw [encodeItemsRest]
    simp only [List.length_cons, List.length_append]
    omega

theorem length_le_encodeItemsStart (l : List String) :
    l.length ≤ (encodeItemsStart l).length := by
  cases l with
  | nil => simp [encodeItemsStart]
  | cons s l =>
    rw [encodeItemsStart]
    have := length_le_encodeItemsRest l
    simp only [List.length_cons, List.length_append]
    have hs : 0 < (encodeStringChars s).length := by
      rw [encodeStringChars_eq]; simp
    omega

theorem data_mk (cs : List Char) : (String.mk cs).data = cs := rfl

/-- `JSON.parse(JSON.stringify(items))` recovers `items` exactly. -/
theorem parseItems_round (l : List String) :
    parseItems (stringifyItems l) = some l := by
  have hlen := length_le_encodeItemsStart l
  have h := parseItemsStart_round l [] ((encodeItemsStart l).length + 1) (by omega)
  rw [List.append_nil] at h
  rw [stringifyItems, parseItems.eq_def]
  simp only [data_mk, List.length_cons, Char.reduceEq, reduceIte]
  rw [h]

/-! ### Metadata objects

`saveCredential` stores
`{"createdAt":…,"updatedAt":…,"key":…,"useBiometrics":…,"useDevicePasscode":…}`
(JS object-literal insertion order).  `updateCredential` on a missing record
builds a fresh object `{createdAt}` and then assigns `updatedAt`,
`useBiometrics` and `useDevicePasscode`, so that object has no `key` property;
the `key` field is therefore optional, in the position where
`JSON.stringify` would emit it. -/

structure Metadata where
  createdAt : String
  updatedAt : String
  key : Option String
  useBiometrics : Bool
  useDevicePasscode : Bool
deriving DecidableEq, Repr

def encodeBoolChars (b : Bool) : List Char :=
  if b then "true".data else "false".data

def encodeFieldStr (name : String) (v : String) : List Char :=
  '"' :: name.data ++ '"' :: ':' :: encodeStringChars v

def encodeFieldBool (name : String) (b : Bool) : List Char :=
  '"' :: name.data ++ '"' :: ':' :: encodeBoolChars b

/-- `JSON.stringify` of a metadata object. -/
def stringifyMeta (m : Metadata) : String :=
  String.mk ('\x7b' :: encodeFieldStr "createdAt" m.createdAt
    ++ ',' :: encodeFieldStr "updatedAt" m.updatedAt
    ++ (match m.key with
        | some k => ',' :: encodeFieldStr "key" k
        | none => [])
    ++ ',' :: encodeFieldBool "useBiometrics" m.useBiometrics
    ++ ',' :: encodeFieldBool "useDevicePasscode" m.useDevicePasscode
    ++ ['\x7d'])

/-- Consume an expected literal prefix. -/
def expectChars : List Char → List Char → Option (List Char)
  | [], l => some l
  | _ :: _, [] => none
  | p :: ps, c :: cs => if c = p then expectChars ps cs else none

def parseStrField (name : String) (l : List Char) : Option (String × List Char) :=
  match expectChars ('"' :: name.data ++ ['"', ':', '"']) l with
  | some r =>
    match parseJStr r with
    | some (cs, rest) => some (String.mk cs, rest)
    | none => none
  | none => none

def parseBoolField (name : String) (l : List Char) : Option (Bool × List Char) :=
  match expectChars ('"' :: name.data ++ ['"', ':']) l with
  | some r =>
    match expectChars "true".data r with
    | some r2 => some (true, r2)
    | none =>
      match expectChars "false".data r with
      | some r2 => some (false, r2)
      | none => none
  | none => none

/-- `JSON.parse` restricted to the metadata grammar above; `none` models a
thrown `SyntaxError`. -/
def parseMeta (s : String) : Option Metadata := do
  let r0 ← expectChars ['\x7b'] s.data
  let p1 ← parseStrField "createdAt" r0
  let r2 ← expectChars [','] p1.2
  let p3 ← parseStrField "updatedAt" r2
  let r4 ← expectChars [','] p3.2
  let p6 ←
    match parseStrField "key" r4 with
    | some (k, r5) =>
      match expectChars [','] r5 with
      | some r6 => some (some k, r6)
      | none => none
    | none => some ((none : Option String), r4)
  let p7 ← parseBoolField "useBiometrics" p6.2
  let r8 ← expectChars [','] p7.2
  let p9 ← parseBoolField "useDevicePasscode" r8
  let r10 ← expectChars ['\x7d'] p9.2
  if r10 = [] then
    some ⟨p1.1, p3.1, p6.1, p7.1, p9.1⟩
  else none

theorem expectChars_append (p rest : List Char) : expectChars p (p ++ rest) = some rest := by
  induction p with
  | nil => rfl
  | cons c p ih => simp [expectChars, ih]

theorem expectChars_one (c : Char) (rest : List Char) :
    expectChars [c] (c :: rest) = some rest := by
  simp [expectChars]

theorem parseStrField_round (name v : String) (rest : List Char) :
    parseStrField name (encodeFieldStr name v ++ rest) = some (v, rest) := by
  have h : encodeFieldStr name v ++ rest
      = ('"' :: name.data ++ ['"', ':', '"'])
        ++ ((v.data.map escapeChar).flatten ++ '"' :: rest) := by
    rw [encodeFieldStr, encodeStringChars]
    simp [List.append_assoc]
  rw [h]
  simp only [parseStrField, expectChars_append, parseJStr_round, mk_data]

theorem parseBoolField_round (name : String) (b : Bool) (rest : List Char) :
    parseBoolField name (encodeFieldBool name b ++ rest) = some (b, rest) := by
  have h : encodeFieldBool name b ++ rest
      = ('"' :: name.data ++ ['"', ':']) ++ (encodeBoolChars b ++ rest) := by
    rw [encodeFieldBool]
    simp [List.append_assoc]
  rw [h]
  simp only [parseBoolField, expectChars_append]
  cases b with
  | true => simp only [encodeBoolChars, reduceIte, expectChars_append]
  | false =>
    have ht : ("true".data : List Char) = 't' :: 'r' :: 'u' :: 'e' :: [] := rfl
    have hf : ("false".data : List Char) = 'f' :: 'a' :: 'l' :: 's' :: 'e' :: [] := rfl
    simp only [encodeBoolChars, reduceIte, ht, hf]
    simp [expectChars, Char.reduceEq]

theorem parseStrField_key_fail (b : Bool) (rest : List Char) :
    parseStrField "key" (encodeFieldBool "useBiometrics" b ++ rest) = none := by
  have hk : ("key".data : List Char) = 'k' :: "ey".data := rfl
  have hu : ("useBiometrics".data : List Char) = 'u' :: "seBiometrics".data := rfl
  simp only [parseStrField, encodeFieldBool, hk, hu, List.cons_append, List.append_assoc]
  simp [expectChars, Char.reduceEq]

/-- `JSON.parse(JSON.stringify(meta))` recovers the metadata object exactly. -/
theorem parseMeta_round (m : Metadata) : parseMeta (stringifyMeta m) = some m := by
  cases m with
  | mk ca ua key ub up =>
    cases key with
    | none =>
      simp only [parseMeta, stringifyMeta, data_mk, List.cons_append, List.append_assoc,
        List.nil_append, expectChars_one, Option.bind_eq_bind, Option.some_bind,
        parseStrField_round, parseStrField_key_fail, parseBoolField_round]
      simp
    | some k =>
      simp only [parseMeta, stringifyMeta, data_mk, List.cons_append, List.append_assoc,
        List.nil_append, expectChars_one, Option.bind_eq_bind, Option.some_bind,
        parseStrField_round, parseBoolField_round]
      simp

/-! ### Platform model

`react-native-keychain` and MMKV are the external collaborators.  The world
carries the two stores plus an oracle (`kcEvents`) prescribing, for each
keychain call in order, whether it behaves normally (`ok`), resolves to a
falsy result (`retFalse`, e.g. a soft authentication failure on a read), or
rejects with an exception (`throwErr`).  The clock stream supplies the values
of successive `new Date()` calls as opaque strings.  Reading a stored entry
whose access control is non-trivial triggers the platform's interactive
challenge; the service name is appended to `challenges` when that happens,
and to `prompts` whenever the read options carry an `authenticationPrompt`. -/

inductive OS
  | ios
  | android
deriving DecidableEq, Repr

inductive AccessControl
  | biometryAny
  | devicePasscode
  | biometryAnyOrDevicePasscode
deriving DecidableEq, Repr

inductive SecurityLevel
  | secureHardware
  | secureSoftware
deriving DecidableEq, Repr

inductive BiometryKind
  | faceId
  | touchId
  | opticId
  | generic
deriving DecidableEq, Repr

structure AuthPrompt where
  title : String
  description : String
  cancel : Option String
deriving DecidableEq, Repr

structure KcOptions where
  service : String
  accessControl : Option AccessControl
  securityLevel : Option SecurityLevel
  authenticationPrompt : Option AuthPrompt
  authenticationType : Bool
deriving DecidableEq, Repr

structure KcEntry where
  username : String
  password : String
  accessControl : Option AccessControl
  securityLevel : Option SecurityLevel
deriving DecidableEq, Repr

inductive KcEvent
  | ok
  | retFalse
  | throwErr (msg : String)
deriving DecidableEq, Repr

def KcEvent.isThrow : KcEvent → Bool
  | KcEvent.throwErr _ => true
  | _ => false

structure World where
  mmkv : String → Option String
  keychain : String → Option KcEntry
  kcEvents : List KcEvent
  clock : List String
  biometry : Option BiometryKind
  challenges : List String
  prompts : List String

def setFun (f : String → Option α) (k : String) (v : α) : String → Option α :=
  fun k2 => if k2 = k then some v else f k2

def delFun (f : String → Option α) (k : String) : String → Option α :=
  fun k2 => if k2 = k then none else f k2

/-- Computations over the world: a value or a thrown exception message,
together with the world as it stands when the computation finishes (state
mutated before a throw persists, as in JS). -/
def M (α : Type) : Type := World → Except String α × World

instance : Monad M where
  pure a := fun w => (Except.ok a, w)
  bind x f := fun w =>
    match x w with
    | (Except.ok a, w1) => f a w1
    | (Except.error e, w1) => (Except.error e, w1)

def throwM (msg : String) : M α := fun w => (Except.error msg, w)

/-- `try { x } catch (error) { h(error) }`. -/
def tryM (x : M α) (h : String → M α) : M α := fun w =>
  match x w with
  | (Except.error e, w1) => h e w1
  | r => r

def takeEvent (w : World) : KcEvent × World :=
  match w.kcEvents with
  | [] => (KcEvent.ok, w)
  | e :: rest => (e, { w with kcEvents := rest })

/-- `new Date().toISOString()` / `new Date().getTime()`: consume the next
clock value. -/
def nowStr : M String := fun w =>
  match w.clock with
  | [] => (Except.ok "", w)
  | t :: rest => (Except.ok t, { w with clock := rest })

def mmkvGetString (k : String) : M (Option String) := fun w => (Except.ok (w.mmkv k), w)

def mmkvSet (k v : String) : M Unit := fun w =>
  (Except.ok (), { w with mmkv := setFun w.mmkv k v })

def mmkvDelete (k : String) : M Unit := fun w =>
  (Except.ok (), { w with mmkv := delFun w.mmkv k })

/-- `Keychain.setGenericPassword`. -/
def kcSetGeneric (username password : String) (opts : KcOptions) : M Unit := fun w =>
  match takeEvent w with
  | (KcEvent.throwErr m, w1) => (Except.error m, w1)
  | (_, w1) =>
    let entry : KcEntry := KcEntry.mk username password opts.accessControl opts.securityLevel
    (Except.ok (), { w1 with keychain := setFun w1.keychain opts.service entry })

/-- `Keychain.getGenericPassword`: reading an entry sealed under a
non-trivial access control triggers the interactive challenge. -/
def kcGetGeneric (opts : KcOptions) : M (Option KcEntry) := fun w =>
  let entry := w.keychain opts.service
  let challenged :=
    match entry with
    | some en => en.accessControl.isSome
    | none => false
  let w0 : World :=
    { w with
      challenges := if challenged then w.challenges ++ [opts.service] else w.challenges
      prompts :=
        if opts.authenticationPrompt.isSome then w.prompts ++ [opts.service]
        else w.prompts }
  match takeEvent w0 with
  | (KcEvent.ok, w1) => (Except.ok entry, w1)
  | (KcEvent.retFalse, w1) => (Except.ok none, w1)
  | (KcEvent.throwErr m, w1) => (Except.error m, w1)

/-- `Keychain.resetGenericPassword`. -/
def kcResetGeneric (service : String) : M Unit := fun w =>
  match takeEvent w with
  | (KcEvent.throwErr m, w1) => (Except.error m, w1)
  | (_, w1) => (Except.ok (), { w1 with keychain := delFun w1.keychain service })

/-- `Keychain.getSupportedBiometryType`. -/
def kcSupportedBiometry : M (Option BiometryKind) := fun w =>
  match takeEvent w with
  | (KcEvent.throwErr m, w1) => (Except.error m, w1)
  | (_, w1) => (Except.ok w1.biometry, w1)

/-! ### StorageService (src/services/StorageService.js) -/

/-- Keychain service identifier prefix (`SERVICE` in the source). -/
def SERVICE : String := "com.lockscreencreds.example"

def svc (key : String) : String := SERVICE ++ "." ++ key

/-- The `options` argument of the credential operations
(`useBiometrics`, `useDevicePasscode`, `promptMessage`), with JS
destructuring defaults applied at use sites. -/
structure CredOptions where
  useBiometrics : Bool
  useDevicePasscode : Bool
  promptMessage : Option String
deriving DecidableEq, Repr

def defaultCredOptions : CredOptions := CredOptions.mk false false none

def osAndroid : OS → Bool
  | OS.android => true
  | OS.ios => false

/-- `getItemsList` (lines 23–26): `itemsList ? JSON.parse(itemsList) : []`.
A falsy stored value (absent or empty string) yields `[]`; a stored string
outside the grammar makes `JSON.parse` throw. -/
def getItemsList : M (List String) := do
  let itemsList ← mmkvGetString "itemsList"
  match itemsList with
  | none => pure []
  | some s =>
    if s = "" then pure []
    else
      match parseItems s with
      | some l => pure l
      | none => throwM "SyntaxError: JSON.parse"

/-- `saveItemsList` (lines 32–34). -/
def saveItemsList (items : List String) : M Unit :=
  mmkvSet "itemsList" (stringifyItems items)

/-- The keychain options built by `saveCredential` (lines 46–94): access
control from the two policy flags, platform security level, and the
Android-only authentication prompt. -/
def saveKcOptions (os : OS) (key : String) (ub up : Bool) : KcOptions :=
  let ac0 : Option AccessControl :=
    if ub && up then some AccessControl.biometryAnyOrDevicePasscode
    else if ub then some AccessControl.biometryAny
    else if up then some AccessControl.devicePasscode
    else none
  let androidAuthRequired := ub || up
  let acsl : Option AccessControl × Option SecurityLevel :=
    if osAndroid os && (ub || up) then
      (if ac0.isNone then some AccessControl.biometryAnyOrDevicePasscode else ac0,
        some SecurityLevel.secureHardware)
    else if ac0.isSome then (ac0, some SecurityLevel.secureSoftware)
    else (ac0, none)
  let prompt : Option AuthPrompt :=
    if osAndroid os && androidAuthRequired then
      some (AuthPrompt.mk "Authentication Required"
        "Please authenticate to access this credential" none)
    else none
  KcOptions.mk (svc key) acsl.1 acsl.2 prompt (osAndroid os && androidAuthRequired)

/-- `saveCredential` (lines 44–123): write fresh metadata, seal the secret,
then append `key` to the items list when absent; any exception is caught and
turned into `false`. -/
def saveCredential (os : OS) (key username password : String)
    (options : CredOptions) : M Bool :=
  tryM
    (do
      let ub := options.useBiometrics
      let up := options.useDevicePasscode
      let kcOpts := saveKcOptions os key ub up
      let t1 ← nowStr
      let t2 ← nowStr
      let meta : Metadata := Metadata.mk t1 t2 (some key) ub up
      mmkvSet ("metadata_" ++ key) (stringifyMeta meta)
      kcSetGeneric username password kcOpts
      let currentItems ← getItemsList
      if key ∈ currentItems then
        pure true
      else do
        saveItemsList (currentItems ++ [key])
        pure true)
    (fun _ => pure false)

def metaUseBiometrics : Option Metadata → Bool
  | some m => m.useBiometrics
  | none => false

def metaUseDevicePasscode : Option Metadata → Bool
  | some m => m.useDevicePasscode
  | none => false

/-- The keychain read options built by `getCredential` (lines 140–160):
the authentication prompt is attached when the stored metadata requires
authentication or the caller passed `useBiometrics`; on Android the options
additionally carry an access control derived from `metadata.useBiometrics`. -/
def getKcOptions (os : OS) (key : String) (metadata : Option Metadata)
    (ub : Bool) (promptMessage : String) : KcOptions :=
  let requiresAuth := metaUseBiometrics metadata || metaUseDevicePasscode metadata
  if requiresAuth || ub then
    let base := KcOptions.mk (svc key) none none
      (some (AuthPrompt.mk promptMessage
        "Authentication is required to access this credential" (some "Cancel")))
      false
    if osAndroid os then
      { base with
        authenticationType := true
        accessControl :=
          some (if metaUseBiometrics metadata then AccessControl.biometryAny
            else AccessControl.devicePasscode)
        securityLevel := some SecurityLevel.secureHardware }
    else base
  else KcOptions.mk (svc key) none none none false

/-- The result of `getCredential`: the keychain entry spread together with
the (possibly empty) metadata object. -/
structure CredResult where
  username : String
  password : String
  metadata : Option Metadata
deriving DecidableEq, Repr

/-- `getCredential` (lines 131–189); every exception (including a thrown
authentication failure, lines 173–187) results in `null`. -/
def getCredential (os : OS) (key : String) (options : CredOptions) :
    M (Option CredResult) :=
  tryM
    (do
      let ub := options.useBiometrics
      let promptMessage :=
        match options.promptMessage with
        | some p => p
        | none => "Authenticate to access credential"
      let metadataStr ← mmkvGetString ("metadata_" ++ key)
      let metadata : Option Metadata ←
        match metadataStr with
        | none => pure none
        | some s =>
          if s = "" then pure none
          else
            match parseMeta s with
            | some m => pure (some m)
            | none => throwM "SyntaxError: JSON.parse"
      let kcOpts := getKcOptions os key metadata ub promptMessage
      let credential ← kcGetGeneric kcOpts
      match credential with
      | some en => pure (some (CredResult.mk en.username en.password metadata))
      | none => pure none)
    (fun _ => pure none)

/-- `deleteCredential` (lines 196–216). -/
def deleteCredential (key : String) : M Bool :=
  tryM
    (do
      kcResetGeneric (svc key)
      mmkvDelete ("metadata_" ++ key)
      let currentItems ← getItemsList
      saveItemsList (currentItems.filter (fun item => item ≠ key))
      pure true)
    (fun _ => pure false)

/-- `updateCredential` (lines 226–245): keep (or freshly create) the parsed
metadata, refresh `updatedAt` and the two policy flags, store it, then call
`saveCredential`. -/
def updateCredential (os : OS) (key username password : String)
    (options : CredOptions) : M Bool :=
  tryM
    (do
      let metadataStr ← mmkvGetString ("metadata_" ++ key)
      let m0 : Metadata ←
        match metadataStr with
        | none => do
          let t ← nowStr
          pure (Metadata.mk t "" none false false)
        | some s =>
          if s = "" then do
            let t ← nowStr
            pure (Metadata.mk t "" none false false)
          else
            match parseMeta s with
            | some m => pure m
            | none => throwM "SyntaxError: JSON.parse"
      let t2 ← nowStr
      let newMeta : Metadata :=
        { m0 with
          updatedAt := t2
          useBiometrics := options.useBiometrics
          useDevicePasscode := options.useDevicePasscode }
      mmkvSet ("metadata_" ++ key) (stringifyMeta newMeta)
      saveCredential os key username password options)
    (fun _ => pure false)

/-! ### LockscreenUtils (second chunk of App.tsx) -/

structure BioInfo where
  available : Bool
  kind : Option BiometryKind
  displayName : String
deriving DecidableEq, Repr

def biometryDisplayName (os : OS) : Option BiometryKind → String
  | none => "Not Available"
  | some k =>
    if osAndroid os then "Fingerprint / Biometrics"
    else
      match k with
      | BiometryKind.faceId => "Face ID"
      | BiometryKind.touchId => "Touch ID"
      | BiometryKind.opticId => "Optic ID"
      | BiometryKind.generic => "Biometrics"

/-- `getBiometricInfo` (lines 103–120). -/
def getBiometricInfo (os : OS) : M BioInfo :=
  tryM
    (do
      let t ← kcSupportedBiometry
      pure (BioInfo.mk t.isSome t (biometryDisplayName os t)))
    (fun _ => pure (BioInfo.mk false none "Not Available"))

structure AuthOptions where
  promptMessage : String
  cancelButtonText : String
  fallbackToPasscode : Bool
deriving DecidableEq, Repr

def defaultAuthOptions : AuthOptions :=
  AuthOptions.mk "Authenticate to continue" "Cancel" true

/-- Lines 174–193 of `authenticateWithLockscreen`: create the throwaway
entry under `auth_check_<time>`, read it back (this triggers the interactive
challenge), then delete it.  Note the cleanup is a plain statement after the
read, not a `finally`: it is skipped when the read throws. -/
def authChallengeCore (secOpts : KcOptions) : M Bool := do
  let t ← nowStr
  let tempKey := "auth_check_" ++ t
  kcSetGeneric "auth_user" "auth_check" { secOpts with service := tempKey }
  let result ← kcGetGeneric { secOpts with service := tempKey }
  kcResetGeneric tempKey
  pure result.isSome

/-- `authenticateWithLockscreen` (lines 127–209): build the security options
from `fallbackToPasscode` and the platform, run the throwaway-entry challenge
(`authChallengeCore`), and collapse every thrown error (including user
cancellation, lines 194–207) to `false`. -/
def authenticateWithLockscreen (os : OS) (options : AuthOptions) : M Bool :=
  tryM
    (do
      let ac0 : AccessControl :=
        if options.fallbackToPasscode then AccessControl.biometryAnyOrDevicePasscode
        else AccessControl.biometryAny
      let secOpts0 : KcOptions := KcOptions.mk "" (some ac0) none
        (some (AuthPrompt.mk options.promptMessage "Authentication is required"
          (some options.cancelButtonText)))
        true
      let secOpts ←
        if osAndroid os then
          if options.fallbackToPasscode then
            pure { secOpts0 with
              securityLevel := some SecurityLevel.secureHardware
              accessControl := some AccessControl.biometryAnyOrDevicePasscode }
          else do
            let bioInfo ← getBiometricInfo os
            pure { secOpts0 with
              securityLevel := some SecurityLevel.secureHardware
              accessControl :=
                some (if bioInfo.available then AccessControl.biometryAny
                  else AccessControl.devicePasscode) }
        else pure secOpts0
      authChallengeCore secOpts)
    (fun _ => pure false)

/-! ### SettingsScreen clear-all-data (lines 128–187) -/

/-- The `for (const item of items) await StorageService.deleteCredential(item)`
loop. -/
def deleteEach : List String → M Unit
  | [] => pure ()
  | item :: rest => do
    let _ ← deleteCredential item
    deleteEach rest

/-- The `onPress` handler of the destructive confirmation button
(lines 140–183): authenticate first, abort when that returns `false`,
otherwise best-effort delete every item and reset the items list. -/
def clearAllDataConfirmed (os : OS) : M Unit :=
  tryM
    (do
      let success ← authenticateWithLockscreen os
        (AuthOptions.mk "Authenticate to delete all data" "Cancel" true)
      if success then do
        let items ← getItemsList
        deleteEach items
        saveItemsList []
      else pure ())
    (fun _ => pure ())

/-! ### Run lemmas for the monad and primitives -/

theorem run_bind (x : M α) (f : α → M β) (w : World) :
    (x >>= f) w =
      match x w with
      | (Except.ok a, w1) => f a w1
      | (Except.error e, w1) => (Except.error e, w1) := rfl

theorem run_pure (a : α) (w : World) : (pure a : M α) w = (Except.ok a, w) := rfl

theorem run_tryM (x : M α) (h : String → M α) (w : World) :
    tryM x h w =
      match x w with
      | (Except.error e, w1) => h e w1
      | r => r := rfl

def headEvent (w : World) : KcEvent := w.kcEvents.headD KcEvent.ok

def popEvents (w : World) : World := { w with kcEvents := w.kcEvents.tail }

theorem takeEvent_eq (w : World) :
    takeEvent w = (headEvent w, popEvents w) := by
  rcases w with ⟨mm, kc, ev, ck, bio, ch, pr⟩
  cases ev <;> rfl

theorem nowStr_run (w : World) :
    nowStr w = (Except.ok (w.clock.headD ""), { w with clock := w.clock.tail }) := by
  rcases w with ⟨mm, kc, ev, ck, bio, ch, pr⟩
  cases ck <;> rfl

theorem kcSetGeneric_run (u p : String) (opts : KcOptions) (w : World)
    (h : (headEvent w).isThrow = false) :
    kcSetGeneric u p opts w =
      (Except.ok (),
        { w with
          keychain := setFun w.keychain opts.service
            (KcEntry.mk u p opts.accessControl opts.securityLevel)
          kcEvents := w.kcEvents.tail }) := by
  rcases w with ⟨mm, kc, ev, ck, bio, ch, pr⟩
  rcases ev with _ | ⟨e, rest⟩
  · rfl
  · cases e
    · rfl
    · rfl
    · simp [headEvent, KcEvent.isThrow] at h

theorem kcSetGeneric_run_throw (u p : String) (opts : KcOptions) (w : World) (m : String)
    (h : headEvent w = KcEvent.throwErr m) :
    kcSetGeneric u p opts w = (Except.error m, popEvents w) := by
  rcases w with ⟨mm, kc, ev, ck, bio, ch, pr⟩
  rcases ev with _ | ⟨e, rest⟩
  · simp [headEvent] at h
  · cases e <;> simp_all [headEvent, kcSetGeneric, takeEvent, popEvents]

def kcChallenged (w : World) (s : String) : Bool :=
  match w.keychain s with
  | some en => en.accessControl.isSome
  | none => false

/-- The world after a `getGenericPassword` call on `opts`: logs extended,
one oracle event consumed. -/
def afterGet (opts : KcOptions) (w : World) : World :=
  { w with
    challenges :=
      if kcChallenged w opts.service then w.challenges ++ [opts.service]
      else w.challenges
    prompts :=
      if opts.authenticationPrompt.isSome then w.prompts ++ [opts.service]
      else w.prompts
    kcEvents := w.kcEvents.tail }

theorem kcGetGeneric_run (opts : KcOptions) (w : World) :
    kcGetGeneric opts w =
      ((match headEvent w with
        | KcEvent.ok => Except.ok (w.keychain opts.service)
        | KcEvent.retFalse => Except.ok none
        | KcEvent.throwErr m => Except.error m),
        afterGet opts w) := by
  rcases w with ⟨mm, kc, ev, ck, bio, ch, pr⟩
  rcases ev with _ | ⟨e, rest⟩
  · rfl
  · cases e <;> rfl

theorem kcResetGeneric_run (s : String) (w : World)
    (h : (headEvent w).isThrow = false) :
    kcResetGeneric s w =
      (Except.ok (),
        { w with keychain := delFun w.keychain s, kcEvents := w.kcEvents.tail }) := by
  rcases w with ⟨mm, kc, ev, ck, bio, ch, pr⟩
  rcases ev with _ | ⟨e, rest⟩
  · rfl
  · cases e
    · rfl
    · rfl
    · simp [headEvent, KcEvent.isThrow] at h

theorem kcResetGeneric_run_throw (s : String) (w : World) (m : String)
    (h : headEvent w = KcEvent.throwErr m) :
    kcResetGeneric s w = (Except.error m, popEvents w) := by
  rcases w with ⟨mm, kc, ev, ck, bio, ch, pr⟩
  rcases ev with _ | ⟨e, rest⟩
  · simp [headEvent] at h
  · cases e <;> simp_all [headEvent, kcResetGeneric, takeEvent, popEvents]

/-- Pure mirror of `getItemsList`: what the stored `itemsList` denotes
(`none` means `JSON.parse` would throw). -/
def itemsListOf (mm : String → Option String) : Option (List String) :=
  match mm "itemsList" with
  | none => some []
  | some s => if s = "" then some [] else parseItems s

theorem getItemsList_run (w : World) :
    getItemsList w =
      ((match itemsListOf w.mmkv with
        | some l => Except.ok l
        | none => Except.error "SyntaxError: JSON.parse"), w) := by
  rw [getItemsList, itemsListOf, run_bind]
  rcases h : w.mmkv "itemsList" with _ | s
  · simp [mmkvGetString, h, run_pure]
  · simp only [mmkvGetString, h]
    by_cases hs : s = ""
    · simp [hs, run_pure]
    · rcases hp : parseItems s with _ | l <;> simp [hs, hp, run_pure, throwM]

/-! ### Key-space disjointness -/

theorem setFun_same (f : String → Option α) (k : String) (v : α) :
    setFun f k v k = some v := by simp [setFun]

theorem setFun_other (f : String → Option α) (k : String) (v : α) (k2 : String)
    (h : k2 ≠ k) : setFun f k v k2 = f k2 := by simp [setFun, h]

theorem delFun_same (f : String → Option α) (k : String) : delFun f k k = none := by
  simp [delFun]

theorem delFun_other (f : String → Option α) (k : String) (k2 : String)
    (h : k2 ≠ k) : delFun f k k2 = f k2 := by simp [delFun, h]

theorem itemsList_ne_metadata (k : String) :
    ("itemsList" : String) ≠ "metadata_" ++ k := by
  intro h
  have h2 := congrArg String.data h
  rw [String.data_append] at h2
  have ha : ("itemsList" : String).data = 'i' :: "temsList".data := rfl
  have hb : ("metadata_" : String).data = 'm' :: "etadata_".data := rfl
  rw [ha, hb] at h2
  simp [List.cons_append, Char.reduceEq] at h2

theorem metadata_append_inj (k1 k2 : String)
    (h : "metadata_" ++ k1 = "metadata_" ++ k2) : k1 = k2 := by
  have h2 := congrArg String.data h
  rw [String.data_append, String.data_append] at h2
  have h3 := List.append_cancel_left h2
  rcases k1 with ⟨d1⟩
  rcases k2 with ⟨d2⟩
  exact congrArg String.mk h3

theorem svc_append_inj (k1 k2 : String) (h : svc k1 = svc k2) : k1 = k2 := by
  rw [svc, svc] at h
  have h2 := congrArg String.data h
  rw [String.data_append, String.data_append, String.data_append,
    String.data_append, List.append_assoc, List.append_assoc] at h2
  have h3 := List.append_cancel_left (List.append_cancel_left h2)
  rcases k1 with ⟨d1⟩
  rcases k2 with ⟨d2⟩
  exact congrArg String.mk h3

theorem svc_ne_authCheck (k t : String) : svc k ≠ "auth_check_" ++ t := by
  intro h
  rw [svc] at h
  have h2 := congrArg String.data h
  rw [String.data_append, String.data_append, String.data_append] at h2
  have hs : SERVICE.data = 'c' :: "om.lockscreencreds.example".data := rfl
  have ha : ("auth_check_" : String).data = 'a' :: "uth_check_".data := rfl
  rw [hs, ha] at h2
  simp [List.cons_append, Char.reduceEq] at h2

theorem itemsList_ne_svcless : ∀ k : String, ("itemsList" : String) = "metadata_" ++ k → False :=
  fun k h => itemsList_ne_metadata k h

theorem itemsListOf_set_metadata (mm : String → Option String) (k v : String) :
    itemsListOf (setFun mm ("metadata_" ++ k) v) = itemsListOf mm := by
  rw [itemsListOf, itemsListOf, setFun_other _ _ _ _ (itemsList_ne_metadata k)]

/-! ### Characterizing a successful save -/

/-- The metadata object written by `saveCredential` on a world `w`. -/
def savedMeta (key : String) (opts : CredOptions) (w : World) : Metadata :=
  Metadata.mk (w.clock.headD "") (w.clock.tail.headD "") (some key)
    opts.useBiometrics opts.useDevicePasscode

/-- The keychain entry written by `saveCredential`. -/
def savedEntry (os : OS) (u p : String) (key : String) (opts : CredOptions) : KcEntry :=
  KcEntry.mk u p
    (saveKcOptions os key opts.useBiometrics opts.useDevicePasscode).accessControl
    (saveKcOptions os key opts.useBiometrics opts.useDevicePasscode).securityLevel

/-- The MMKV store after a successful `saveCredential`. -/
def savedMmkv (key : String) (opts : CredOptions) (w : World) (items : List String) :
    String → Option String :=
  let mm1 := setFun w.mmkv ("metadata_" ++ key) (stringifyMeta (savedMeta key opts w))
  if key ∈ items then mm1
  else setFun mm1 "itemsList" (stringifyItems (items ++ [key]))

theorem saveKcOptions_service (os : OS) (key : String) (ub up : Bool) :
    (saveKcOptions os key ub up).service = svc key := rfl

theorem saveCredential_run (os : OS) (key u p : String) (opts : CredOptions)
    (w : World) (items : List String)
    (hit : itemsListOf w.mmkv = some items)
    (hev : (headEvent w).isThrow = false) :
    saveCredential os key u p opts w =
      (Except.ok true,
        { w with
          mmkv := savedMmkv key opts w items
          keychain := setFun w.keychain (svc key) (savedEntry os u p key opts)
          kcEvents := w.kcEvents.tail
          clock := w.clock.tail.tail }) := by
  rcases w with ⟨mm, kc, ev, ck, bio, ch, pr⟩
  simp only [saveCredential, run_tryM, run_bind, run_pure, nowStr_run, mmkvSet,
    kcSetGeneric, takeEvent_eq, getItemsList_run, saveItemsList, savedMmkv, savedMeta,
    savedEntry, itemsListOf_set_metadata] at hit ⊢
  rcases ev with _ | ⟨e, rest⟩
  · simp only [headEvent, List.headD, popEvents, List.tail]
    simp only [itemsListOf_set_metadata, hit]
    by_cases hmem : key ∈ items
    · simp [hmem, saveKcOptions_service, run_bind, run_pure, mmkvSet]
    · simp [hmem, saveKcOptions_service, run_bind, run_pure, mmkvSet]
  · cases e
    · simp only [headEvent, List.headD, popEvents, List.tail]
      simp only [itemsListOf_set_metadata, hit]
      by_cases hmem : key ∈ items
      · simp [hmem, saveKcOptions_service, run_bind, run_pure, mmkvSet]
      · simp [hmem, saveKcOptions_service, run_bind, run_pure, mmkvSet]
    · simp only [headEvent, List.headD, popEvents, List.tail]
      simp only [itemsListOf_set_metadata, hit]
      by_cases hmem : key ∈ items
      · simp [hmem, saveKcOptions_service, run_bind, run_pure, mmkvSet]
      · simp [hmem, saveKcOptions_service, run_bind, run_pure, mmkvSet]
    · simp [headEvent, KcEvent.isThrow] at hev

/-! ### Frame properties of the authentication challenge -/

/-- No oracle event in sight is an exception. -/
def eventsClean (l : List KcEvent) : Prop := ∀ e ∈ l, e.isThrow = false

instance eventsCleanDec (l : List KcEvent) : Decidable (eventsClean l) :=
  List.decidableBAll _ l

theorem eventsClean_head (l : List KcEvent) (h : eventsClean l) :
    (l.headD KcEvent.ok).isThrow = false := by
  cases l with
  | nil => rfl
  | cons e rest => exact h e (List.mem_cons_self e rest)

theorem eventsClean_tail (l : List KcEvent) (h : eventsClean l) :
    eventsClean l.tail := by
  cases l with
  | nil => exact h
  | cons e rest => exact fun e2 h2 => h e2 (List.mem_cons_of_mem e h2)

theorem getBiometricInfo_run (os : OS) (w : World) :
    ∃ info : BioInfo, getBiometricInfo os w = (Except.ok info, popEvents w) := by
  rcases w with ⟨mm, kc, ev, ck, bio, ch, pr⟩
  rcases ev with _ | ⟨e, rest⟩
  · exact ⟨_, rfl⟩
  · cases e
    · exact ⟨_, rfl⟩
    · exact ⟨_, rfl⟩
    · exact ⟨_, rfl⟩

theorem authChallengeCore_mmkv (sec : KcOptions) (w : World) :
    ((authChallengeCore sec w).2).mmkv = w.mmkv := by
  rcases w with ⟨mm, kc, ev, ck, bio, ch, pr⟩
  rcases ev with _ | ⟨e1, _ | ⟨e2, _ | ⟨e3, ev⟩⟩⟩ <;>
    (try cases e1) <;> (try cases e2) <;> (try cases e3) <;>
    simp [authChallengeCore, run_bind, run_pure, nowStr_run, kcSetGeneric, kcGetGeneric,
      kcResetGeneric, takeEvent]

theorem authChallengeCore_keychain_frame (sec : KcOptions) (w : World) (s : String)
    (hs : ∀ t, s ≠ "auth_check_" ++ t) :
    ((authChallengeCore sec w).2).keychain s = w.keychain s := by
  rcases w with ⟨mm, kc, ev, ck, bio, ch, pr⟩
  rcases ev with _ | ⟨e1, _ | ⟨e2, _ | ⟨e3, ev⟩⟩⟩ <;>
    (try cases e1) <;> (try cases e2) <;> (try cases e3) <;>
    simp [authChallengeCore, run_bind, run_pure, nowStr_run, kcSetGeneric, kcGetGeneric,
      kcResetGeneric, takeEvent, delFun, setFun, hs _]

theorem authChallengeCore_clean (sec : KcOptions) (w : World)
    (hc : eventsClean w.kcEvents) :
    ((authChallengeCore sec w).2).keychain ("auth_check_" ++ w.clock.headD "") = none
      ∧ (authChallengeCore sec w).1.isOk = true := by
  rcases w with ⟨mm, kc, ev, ck, bio, ch, pr⟩
  rcases ev with _ | ⟨e1, _ | ⟨e2, _ | ⟨e3, ev⟩⟩⟩ <;>
    (try cases e1) <;> (try cases e2) <;> (try cases e3) <;>
    first
    | (simp [eventsClean, KcEvent.isThrow] at hc; done)
    | simp [authChallengeCore, run_bind, run_pure, nowStr_run, kcSetGeneric,
        kcGetGeneric, kcResetGeneric, takeEvent, delFun, setFun, Except.isOk,
        Except.toBool]

theorem auth_factor (os : OS) (opts : AuthOptions) (w : World) :
    ∃ (sec : KcOptions) (w1 : World),
      w1.mmkv = w.mmkv ∧ w1.keychain = w.keychain ∧ w1.clock = w.clock ∧
      (eventsClean w.kcEvents → eventsClean w1.kcEvents) ∧
      authenticateWithLockscreen os opts w =
        (match authChallengeCore sec w1 with
          | (Except.error _, w2) => (Except.ok false, w2)
          | r => r) := by
  rcases opts with ⟨pm, cb, fb⟩
  cases os with
  | ios =>
    refine ⟨KcOptions.mk ""
      (some (if fb then AccessControl.biometryAnyOrDevicePasscode
        else AccessControl.biometryAny)) none
      (some (AuthPrompt.mk pm "Authentication is required" (some cb))) true,
      w, rfl, rfl, rfl, fun h => h, ?_⟩
    rcases hres : authChallengeCore (KcOptions.mk ""
      (some (if fb then AccessControl.biometryAnyOrDevicePasscode
        else AccessControl.biometryAny)) none
      (some (AuthPrompt.mk pm "Authentication is required" (some cb))) true) w
      with ⟨res, w2⟩
    cases res <;>
      simp [authenticateWithLockscreen, run_tryM, run_bind, run_pure, osAndroid, hres]
  | android =>
    cases fb with
    | true =>
      refine ⟨{ KcOptions.mk ""
          (some AccessControl.biometryAnyOrDevicePasscode) none
          (some (AuthPrompt.mk pm "Authentication is required" (some cb))) true with
          securityLevel := some SecurityLevel.secureHardware
          accessControl := some AccessControl.biometryAnyOrDevicePasscode },
        w, rfl, rfl, rfl, fun h => h, ?_⟩
      rcases hres : authChallengeCore ({ KcOptions.mk ""
          (some AccessControl.biometryAnyOrDevicePasscode) none
          (some (AuthPrompt.mk pm "Authentication is required" (some cb))) true with
          securityLevel := some SecurityLevel.secureHardware
          accessControl := some AccessControl.biometryAnyOrDevicePasscode }) w
        with ⟨res, w2⟩
      cases res <;>
        simp [authenticateWithLockscreen, run_tryM, run_bind, run_pure, osAndroid, hres]
    | false =>
      obtain ⟨info, hinfo⟩ := getBiometricInfo_run OS.android w
      refine ⟨{ KcOptions.mk ""
          (some AccessControl.biometryAny) none
          (some (AuthPrompt.mk pm "Authentication is required" (some cb))) true with
          securityLevel := some SecurityLevel.secureHardware
          accessControl :=
            some (if info.available then AccessControl.biometryAny
              else AccessControl.devicePasscode) },
        popEvents w, rfl, rfl, rfl,
        fun h => eventsClean_tail _ h, ?_⟩
      rcases hres : authChallengeCore ({ KcOptions.mk ""
          (some AccessControl.biometryAny) none
          (some (AuthPrompt.mk pm "Authentication is required" (some cb))) true with
          securityLevel := some SecurityLevel.secureHardware
          accessControl :=
            some (if info.available then AccessControl.biometryAny
              else AccessControl.devicePasscode) }) (popEvents w)
        with ⟨res, w2⟩
      cases res <;>
        simp [authenticateWithLockscreen, run_tryM, run_bind, run_pure, osAndroid,
          hinfo, hres]

theorem auth_mmkv_frame (os : OS) (opts : AuthOptions) (w : World) :
    ((authenticateWithLockscreen os opts w).2).mmkv = w.mmkv := by
  obtain ⟨sec, w1, hmm, hkc, hck, hcl, heq⟩ := auth_factor os opts w
  rw [heq]
  have hcore := authChallengeCore_mmkv sec w1
  rcases hres : authChallengeCore sec w1 with ⟨res, w2⟩
  rw [hres] at hcore
  cases res <;> simpa [hmm] using hcore

theorem auth_keychain_frame (os : OS) (opts : AuthOptions) (w : World) (s : String)
    (hs : ∀ t, s ≠ "auth_check_" ++ t) :
    ((authenticateWithLockscreen os opts w).2).keychain s = w.keychain s := by
  obtain ⟨sec, w1, hmm, hkc, hck, hcl, heq⟩ := auth_factor os opts w
  rw [heq]
  have hcore := authChallengeCore_keychain_frame sec w1 s hs
  rcases hres : authChallengeCore sec w1 with ⟨res, w2⟩
  rw [hres] at hcore
  cases res <;> simpa [hkc] using hcore

theorem auth_clean_cleanup (os : OS) (opts : AuthOptions) (w : World)
    (hc : eventsClean w.kcEvents) :
    ((authenticateWithLockscreen os opts w).2).keychain
        ("auth_check_" ++ w.clock.headD "") = none
      ∧ (authenticateWithLockscreen os opts w).1.isOk = true := by
  obtain ⟨sec, w1, hmm, hkc, hck, hcl, heq⟩ := auth_factor os opts w
  rw [heq]
  have hcore := authChallengeCore_clean sec w1 (hcl hc)
  rw [hck] at hcore
  rcases hres : authChallengeCore sec w1 with ⟨res, w2⟩
  rw [hres] at hcore
  cases res with
  | ok r => simpa using hcore
  | error e => exact absurd hcore.2 (by simp [Except.isOk, Except.toBool])

/-! ### Characterizing reads and deletes -/

/-- Pure mirror of the metadata lookup in `getCredential`: `some none` for an
absent/falsy entry (JS `{}`), `some (some m)` for a parsed object, `none`
when `JSON.parse` would throw. -/
def metaValOf (mm : String → Option String) (key : String) : Option (Option Metadata) :=
  match mm ("metadata_" ++ key) with
  | none => some none
  | some s => if s = "" then some none else (parseMeta s).map some

def promptMsgOf (opts : CredOptions) : String :=
  match opts.promptMessage with
  | some p => p
  | none => "Authenticate to access credential"

theorem getKcOptions_service (os : OS) (key : String) (md : Option Metadata)
    (ub : Bool) (pm : String) : (getKcOptions os key md ub pm).service = svc key := by
  rw [getKcOptions]
  split_ifs <;> rfl

theorem getKcOptions_prompt (os : OS) (key : String) (md : Option Metadata)
    (ub : Bool) (pm : String) :
    (getKcOptions os key md ub pm).authenticationPrompt.isSome
      = (metaUseBiometrics md || metaUseDevicePasscode md || ub) := by
  rw [getKcOptions]
  split_ifs with h1 h2 <;> simp_all [Bool.or_assoc]

theorem getCredential_run (os : OS) (key : String) (opts : CredOptions) (w : World)
    (md : Option Metadata) (hmd : metaValOf w.mmkv key = some md) :
    getCredential os key opts w =
      ((match headEvent w with
        | KcEvent.ok =>
          Except.ok ((w.keychain (svc key)).map
            (fun en => CredResult.mk en.username en.password md))
        | KcEvent.retFalse => Except.ok none
        | KcEvent.throwErr _ => Except.ok none),
        afterGet (getKcOptions os key md opts.useBiometrics (promptMsgOf opts)) w) := by
  rw [metaValOf] at hmd
  rw [getCredential, run_tryM]
  simp only [run_bind, run_pure, mmkvGetString]
  rcases h : w.mmkv ("metadata_" ++ key) with _ | s
  · rw [h] at hmd
    simp only [Option.some.injEq] at hmd
    subst hmd
    simp only [h, run_bind, run_pure]
    rw [kcGetGeneric_run, getKcOptions_service]
    rcases he : headEvent w with _ | _ | m <;>
      rcases hkc : w.keychain (svc key) with _ | en <;>
      simp [promptMsgOf, hkc]
  · rw [h] at hmd
    by_cases hs : s = ""
    · simp only [hs, reduceIte] at hmd ⊢
      simp only [Option.some.injEq] at hmd
      subst hmd
      simp only [h, hs, reduceIte, run_bind, run_pure]
      rw [kcGetGeneric_run, getKcOptions_service]
      rcases he : headEvent w with _ | _ | m <;>
        rcases hkc : w.keychain (svc key) with _ | en <;>
        simp [promptMsgOf, hkc]
    · simp only [if_neg hs] at hmd
      rcases hp : parseMeta s with _ | m
      · rw [hp] at hmd
        simp at hmd
      · rw [hp] at hmd
        simp only [Option.map_some', Option.some.injEq] at hmd
        subst hmd
        simp only [h, if_neg hs, hp, run_bind, run_pure]
        rw [kcGetGeneric_run, getKcOptions_service]
        rcases he : headEvent w with _ | _ | m2 <;>
          rcases hkc : w.keychain (svc key) with _ | en <;>
          simp [promptMsgOf, hkc]

theorem itemsListOf_del_metadata (mm : String → Option String) (k : String) :
    itemsListOf (delFun mm ("metadata_" ++ k)) = itemsListOf mm := by
  rw [itemsListOf, itemsListOf, delFun_other _ _ _ (itemsList_ne_metadata k)]

theorem deleteCredential_run (key : String) (w : World) (items : List String)
    (hit : itemsListOf w.mmkv = some items)
    (hev : (headEvent w).isThrow = false) :
    deleteCredential key w =
      (Except.ok true,
        { w with
          mmkv := setFun (delFun w.mmkv ("metadata_" ++ key)) "itemsList"
            (stringifyItems (items.filter (fun item => item ≠ key)))
          keychain := delFun w.keychain (svc key)
          kcEvents := w.kcEvents.tail }) := by
  rcases w with ⟨mm, kc, ev, ck, bio, ch, pr⟩
  simp only [deleteCredential, run_tryM, run_bind, run_pure, kcResetGeneric, takeEvent_eq,
    mmkvDelete, getItemsList_run, saveItemsList, mmkvSet, itemsListOf_del_metadata] at hit ⊢
  rcases ev with _ | ⟨e, rest⟩
  · simp only [headEvent, List.headD, popEvents, List.tail]
    simp only [itemsListOf_del_metadata, hit]
  · cases e
    · simp only [headEvent, List.headD, popEvents, List.tail]
      simp only [itemsListOf_del_metadata, hit]
    · simp only [headEvent, List.headD, popEvents, List.tail]
      simp only [itemsListOf_del_metadata, hit]
    · simp [headEvent, KcEvent.isThrow] at hev

/-! ### Small consequences used by the claims -/

theorem stringifyItems_ne_empty (l : List String) : stringifyItems l ≠ "" := by
  intro h
  have h2 := congrArg String.data h
  rw [stringifyItems, data_mk] at h2
  simp at h2

theorem stringifyMeta_ne_empty (m : Metadata) : stringifyMeta m ≠ "" := by
  intro h
  have h2 := congrArg String.data h
  rw [stringifyMeta, data_mk] at h2
  simp at h2

theorem itemsListOf_set_itemsList (mm : String → Option String) (l : List String) :
    itemsListOf (setFun mm "itemsList" (stringifyItems l)) = some l := by
  rw [itemsListOf, setFun_same]
  simp [stringifyItems_ne_empty l, parseItems_round]

theorem metaValOf_set_meta (mm : String → Option String) (key : String) (m : Metadata) :
    metaValOf (setFun mm ("metadata_" ++ key) (stringifyMeta m)) key
      = some (some m) := by
  rw [metaValOf, setFun_same]
  simp [stringifyMeta_ne_empty m, parseMeta_round]

theorem saveKcOptions_none_ac (os : OS) (key : String) :
    (saveKcOptions os key false false).accessControl = none := by
  cases os <;> rfl

theorem saveKcOptions_none_prompt (os : OS) (key : String) :
    (saveKcOptions os key false false).authenticationPrompt = none := by
  cases os <;> rfl

theorem savedEntry_none_ac (os : OS) (u p key : String) :
    (savedEntry os u p key (CredOptions.mk false false none)).accessControl = none := by
  cases os <;> rfl

theorem tryM_isOk (x : M α) (v : α) (w : World) :
    (tryM x (fun _ => pure v) w).1.isOk = true := by
  rcases hx : x w with ⟨res, w1⟩
  cases res <;> simp [tryM, hx, run_pure, Except.isOk, Except.toBool]

/-! ### Claim theorems -/

def emptyMm : String → Option String := fun _ => none

def emptyKc : String → Option KcEntry := fun _ => none

/-- C8: every public StorageService operation is total at its interface:
`saveCredential`, `updateCredential` and `deleteCredential` catch every
internal exception and resolve to a boolean, and `getCredential` resolves to
a credential object or `null`; on no input does a call propagate an
exception to the caller. -/
theorem C8_operations_total (os : OS) (key u p : String) (opts : CredOptions)
    (w : World) :
    (saveCredential os key u p opts w).1.isOk = true
    ∧ (updateCredential os key u p opts w).1.isOk = true
    ∧ (deleteCredential key w).1.isOk = true
    ∧ (getCredential os key opts w).1.isOk = true := by
  refine ⟨?_, ?_, ?_, ?_⟩
  · exact tryM_isOk _ _ _
  · exact tryM_isOk _ _ _
  · exact tryM_isOk _ _ _
  · exact tryM_isOk _ _ _

/-- C10: `saveItemsList items` followed by `getItemsList` returns `items`
(by the `JSON.parse`/`JSON.stringify` round trip), and on a store where no
list has ever been saved `getItemsList` returns the empty array. -/
theorem C10_itemsList_roundtrip (w : World) (items : List String) :
    ((saveItemsList items >>= fun _ => getItemsList) w).1 = Except.ok items
    ∧ (w.mmkv "itemsList" = none → (getItemsList w).1 = Except.ok []) := by
  constructor
  · rw [run_bind]
    simp only [saveItemsList, mmkvSet, getItemsList_run]
    simp [itemsListOf_set_itemsList]
  · intro h
    rw [getItemsList_run]
    simp [itemsListOf, h]

/-- C10 witness: a concrete round trip on the empty store. -/
theorem C10_itemsList_roundtrip_witness :
    ((saveItemsList ["bank", "wifi"] >>= fun _ => getItemsList)
        (World.mk emptyMm emptyKc [] [] none [] [])).1 = Except.ok ["bank", "wifi"]
    ∧ (getItemsList (World.mk emptyMm emptyKc [] [] none [] [])).1 = Except.ok [] := by
  refine ⟨(C10_itemsList_roundtrip (World.mk emptyMm emptyKc [] [] none [] [])
    ["bank", "wifi"]).1, ?_⟩
  exact (C10_itemsList_roundtrip (World.mk emptyMm emptyKc [] [] none [] []) []).2 rfl

def C1w : World :=
  World.mk
    (setFun (setFun emptyMm "itemsList" (stringifyItems ["a"]))
      ("metadata_" ++ "a") (stringifyMeta (Metadata.mk "T0" "T0" (some "a") false false)))
    (setFun emptyKc (svc "a") (KcEntry.mk "alice" "pw1" none none))
    [] ["T1", "T2"] none [] []

/-- C1 counterexample: with `"a"` already present in the ItemIndex (and its
metadata and secret stored), a second `saveCredential("a", …)` does not fail
with `AlreadyExists`: it succeeds (returns `true`) and replaces the stored
metadata entry. -/
theorem C1_counterexample_save_existing_succeeds :
    (saveCredential OS.ios "a" "u2" "p2" defaultCredOptions C1w).1 = Except.ok true
    ∧ ((saveCredential OS.ios "a" "u2" "p2" defaultCredOptions C1w).2).mmkv
        ("metadata_" ++ "a")
      = some (stringifyMeta (Metadata.mk "T1" "T2" (some "a") false false)) := by
  decide

/-- C1 amended: `saveCredential` performs no ItemIndex membership check; for
a key already present in ItemIndex (and absent platform errors) a second
save succeeds with `true`, overwrites the stored metadata entry and the
protected secret for that key, and leaves the stored ItemIndex string
unchanged (no duplicate entry is appended). -/
theorem C1_save_existing_overwrites (os : OS) (key u p : String)
    (opts : CredOptions) (w : World) (items : List String)
    (hit : itemsListOf w.mmkv = some items) (hmem : key ∈ items)
    (hev : (headEvent w).isThrow = false) :
    (saveCredential os key u p opts w).1 = Except.ok true
    ∧ ((saveCredential os key u p opts w).2).mmkv "itemsList" = w.mmkv "itemsList"
    ∧ ((saveCredential os key u p opts w).2).mmkv ("metadata_" ++ key)
        = some (stringifyMeta (savedMeta key opts w))
    ∧ ((saveCredential os key u p opts w).2).keychain (svc key)
        = some (savedEntry os u p key opts) := by
  rw [saveCredential_run os key u p opts w items hit hev]
  refine ⟨rfl, ?_, ?_, ?_⟩
  · simp only [savedMmkv, if_pos hmem]
    exact setFun_other _ _ _ _ (itemsList_ne_metadata key)
  · simp only [savedMmkv, if_pos hmem]
    exact setFun_same _ _ _
  · exact setFun_same _ _ _

/-- C1 witness: the amended behaviour evaluated on the concrete store
holding `"a"`. -/
theorem C1_save_existing_overwrites_witness :
    itemsListOf C1w.mmkv = some ["a"]
    ∧ (saveCredential OS.ios "a" "u2" "p2" defaultCredOptions C1w).1 = Except.ok true
    ∧ ((saveCredential OS.ios "a" "u2" "p2" defaultCredOptions C1w).2).mmkv "itemsList"
      = C1w.mmkv "itemsList" := by
  have h := C1_save_existing_overwrites OS.ios "a" "u2" "p2" defaultCredOptions C1w
    ["a"] (by decide) (by decide) (by decide)
  exact ⟨by decide, h.1, h.2.1⟩

def C3w : World :=
  World.mk
    (setFun (setFun emptyMm "itemsList" (stringifyItems ["a"]))
      ("metadata_" ++ "a") (stringifyMeta (Metadata.mk "T0" "T0" (some "a") false false)))
    (setFun emptyKc (svc "a") (KcEntry.mk "alice" "pw1" none none))
    [] ["T1", "T2", "T3"] none [] []

/-- C3: the code violates the createdAt invariant.  With the record `"a"`
created at `"T0"`, `updateCredential` at times `"T1","T2","T3"` succeeds but
the stored metadata ends with `createdAt = "T2"` — the inner `saveCredential`
call overwrites the carefully preserved metadata with a brand-new object
whose `createdAt` is the update time, defeating the preservation logic of
`updateCredential` lines 229–237. -/
theorem C3_update_resets_createdAt :
    (updateCredential OS.ios "a" "u2" "p2" defaultCredOptions C3w).1 = Except.ok true
    ∧ ((updateCredential OS.ios "a" "u2" "p2" defaultCredOptions C3w).2).mmkv
        ("metadata_" ++ "a")
      = some (stringifyMeta (Metadata.mk "T2" "T3" (some "a") false false)) := by
  decide

def C4w : World := World.mk emptyMm emptyKc [] ["T1", "T2", "T3", "T4"] none [] []

/-- C4 counterexample: on an empty store (no metadata, no index entry for
`"k"`), `updateCredential("k", …)` does not fail with `NotFound`: it returns
`true` and creates the metadata entry, the protected secret, and the index
entry for `"k"`. -/
theorem C4_counterexample_update_absent_creates :
    (updateCredential OS.ios "k" "u" "p" defaultCredOptions C4w).1 = Except.ok true
    ∧ ((updateCredential OS.ios "k" "u" "p" defaultCredOptions C4w).2).mmkv "itemsList"
      = some (stringifyItems ["k"])
    ∧ (((updateCredential OS.ios "k" "u" "p" defaultCredOptions C4w).2).keychain
        (svc "k")).isSome = true
    ∧ (((updateCredential OS.ios "k" "u" "p" defaultCredOptions C4w).2).mmkv
        ("metadata_" ++ "k")).isSome = true := by
  decide

/-- C4 amended: for a key with no stored metadata and no index entry,
`updateCredential` does not fail with `NotFound`; it creates the record —
fresh metadata is stored, the secret is sealed, and the key is appended to
ItemIndex — and returns `true` (absent platform errors). -/
theorem C4_update_absent_creates (os : OS) (key u p : String) (opts : CredOptions)
    (w : World) (items : List String)
    (hmd : w.mmkv ("metadata_" ++ key) = none)
    (hit : itemsListOf w.mmkv = some items)
    (hmem : key ∉ items)
    (hev : (headEvent w).isThrow = false) :
    (updateCredential os key u p opts w).1 = Except.ok true
    ∧ itemsListOf ((updateCredential os key u p opts w).2).mmkv
        = some (items ++ [key])
    ∧ ((updateCredential os key u p opts w).2).keychain (svc key)
        = some (savedEntry os u p key opts)
    ∧ (((updateCredential os key u p opts w).2).mmkv
        ("metadata_" ++ key)).isSome = true := by
  rw [updateCredential, run_tryM]
  simp only [run_bind, run_pure, mmkvGetString, hmd, nowStr_run, mmkvSet]
  have hit2 : itemsListOf (setFun w.mmkv ("metadata_" ++ key)
      (stringifyMeta (Metadata.mk (w.clock.headD "") (w.clock.tail.headD "") none
        opts.useBiometrics opts.useDevicePasscode))) = some items := by
    rw [itemsListOf_set_metadata]; exact hit
  have hsave := saveCredential_run os key u p opts
    (World.mk (setFun w.mmkv ("metadata_" ++ key)
      (stringifyMeta (Metadata.mk (w.clock.headD "") (w.clock.tail.headD "") none
        opts.useBiometrics opts.useDevicePasscode)))
      w.keychain w.kcEvents (w.clock.tail.tail) w.biometry w.challenges w.prompts)
    items hit2 hev
  rw [hsave]
  refine ⟨rfl, ?_, ?_, ?_⟩
  · simp only [savedMmkv, if_neg hmem]
    exact itemsListOf_set_itemsList _ _
  · exact setFun_same _ _ _
  · simp only [savedMmkv, if_neg hmem]
    rw [setFun_other _ _ _ _ (Ne.symm (itemsList_ne_metadata key)), setFun_same]
    rfl

/-- C4 witness: the amended behaviour on the empty store. -/
theorem C4_update_absent_creates_witness :
    (updateCredential OS.ios "k" "u" "p" defaultCredOptions C4w).1 = Except.ok true
    ∧ itemsListOf ((updateCredential OS.ios "k" "u" "p" defaultCredOptions C4w).2).mmkv
      = some ["k"] := by
  have h := C4_update_absent_creates OS.ios "k" "u" "p" defaultCredOptions C4w []
    (by decide) (by decide) (by decide) (by decide)
  exact ⟨h.1, by simpa using h.2.1⟩

/-- C9: a successful `saveCredential key …` changes only the record for
`key`: every other key's metadata entry and protected secret are untouched,
every MMKV key other than this record's metadata and the items list is
untouched, and ItemIndex becomes `items ++ [key]` when `key` was absent
(preserving the previous relative order) and stays exactly `items` when it
was already a member. -/
theorem C9_save_frame (os : OS) (key u p : String) (opts : CredOptions)
    (w : World) (items : List String)
    (hit : itemsListOf w.mmkv = some items)
    (hev : (headEvent w).isThrow = false) :
    (saveCredential os key u p opts w).1 = Except.ok true
    ∧ (∀ k2, k2 ≠ key →
        ((saveCredential os key u p opts w).2).mmkv ("metadata_" ++ k2)
          = w.mmkv ("metadata_" ++ k2))
    ∧ (∀ k2, k2 ≠ key →
        ((saveCredential os key u p opts w).2).keychain (svc k2)
          = w.keychain (svc k2))
    ∧ itemsListOf ((saveCredential os key u p opts w).2).mmkv
        = some (if key ∈ items then items else items ++ [key])
    ∧ (∀ mk2, mk2 ≠ "metadata_" ++ key → mk2 ≠ "itemsList" →
        ((saveCredential os key u p opts w).2).mmkv mk2 = w.mmkv mk2) := by
  rw [saveCredential_run os key u p opts w items hit hev]
  refine ⟨rfl, ?_, ?_, ?_, ?_⟩
  · intro k2 hk2
    have hne : "metadata_" ++ k2 ≠ "metadata_" ++ key :=
      fun h => hk2 (metadata_append_inj k2 key h)
    by_cases hmem : key ∈ items
    · simp only [savedMmkv, if_pos hmem]
      exact setFun_other _ _ _ _ hne
    · simp only [savedMmkv, if_neg hmem]
      rw [setFun_other _ _ _ _ (Ne.symm (itemsList_ne_metadata k2)),
        setFun_other _ _ _ _ hne]
  · intro k2 hk2
    exact setFun_other _ _ _ _ (fun h => hk2 (svc_append_inj k2 key h))
  · by_cases hmem : key ∈ items
    · simp only [savedMmkv, if_pos hmem, itemsListOf_set_metadata, hit]
    · simp only [savedMmkv, if_neg hmem]
      exact itemsListOf_set_itemsList _ _
  · intro mk2 hne1 hne2
    by_cases hmem : key ∈ items
    · simp only [savedMmkv, if_pos hmem]
      exact setFun_other _ _ _ _ hne1
    · simp only [savedMmkv, if_neg hmem]
      rw [setFun_other _ _ _ _ hne2, setFun_other _ _ _ _ hne1]

def C9w : World :=
  World.mk
    (setFun (setFun emptyMm "itemsList" (stringifyItems ["a"]))
      ("metadata_" ++ "a") (stringifyMeta (Metadata.mk "T0" "T0" (some "a") false false)))
    (setFun emptyKc (svc "a") (KcEntry.mk "alice" "pw1" none none))
    [] ["T1", "T2"] none [] []

/-- C9 witness: saving a fresh key `"b"` next to an existing `"a"` leaves
`"a"`'s metadata and secret unchanged and appends `"b"` to the list. -/
theorem C9_save_frame_witness :
    (saveCredential OS.ios "b" "bob" "pw2" defaultCredOptions C9w).1 = Except.ok true
    ∧ ((saveCredential OS.ios "b" "bob" "pw2" defaultCredOptions C9w).2).mmkv
        ("metadata_" ++ "a") = C9w.mmkv ("metadata_" ++ "a")
    ∧ ((saveCredential OS.ios "b" "bob" "pw2" defaultCredOptions C9w).2).keychain
        (svc "a") = C9w.keychain (svc "a")
    ∧ itemsListOf ((saveCredential OS.ios "b" "bob" "pw2" defaultCredOptions C9w).2).mmkv
      = some ["a", "b"] := by
  have h := C9_save_frame OS.ios "b" "bob" "pw2" defaultCredOptions C9w ["a"]
    (by decide) (by decide)
  refine ⟨h.1, h.2.1 "a" (by decide), h.2.2.1 "a" (by decide), ?_⟩
  have h4 := h.2.2.2.1
  simpa using h4

theorem metaValOf_savedMmkv (key : String) (opts : CredOptions) (w : World)
    (items : List String) :
    metaValOf (savedMmkv key opts w items) key = some (some (savedMeta key opts w)) := by
  by_cases hmem : key ∈ items
  · simp only [savedMmkv, if_pos hmem]
    exact metaValOf_set_meta _ _ _
  · simp only [savedMmkv, if_neg hmem]
    rw [metaValOf, setFun_other _ _ _ _ (Ne.symm (itemsList_ne_metadata key)),
      ← metaValOf]
    exact metaValOf_set_meta _ _ _

/-- C7: round trip under the None policy.  After a successful
`saveCredential(k, u, s)` with both policy flags off, `getCredential(k)` with
default options returns the stored username and secret, and neither call
triggers an interactive authentication challenge (the challenge log is
unchanged — the sealed entry carries no access control — and the read is a
plain read with no prompt attached). -/
theorem C7_roundtrip_none_policy (os : OS) (k u s : String) (w : World)
    (items : List String)
    (hit : itemsListOf w.mmkv = some items)
    (hev1 : (headEvent w).isThrow = false)
    (hev2 : w.kcEvents.tail.headD KcEvent.ok = KcEvent.ok) :
    (saveCredential os k u s (CredOptions.mk false false none) w).1 = Except.ok true
    ∧ (getCredential os k defaultCredOptions
        ((saveCredential os k u s (CredOptions.mk false false none) w).2)).1
      = Except.ok (some (CredResult.mk u s
          (some (savedMeta k (CredOptions.mk false false none) w))))
    ∧ ((getCredential os k defaultCredOptions
        ((saveCredential os k u s (CredOptions.mk false false none) w).2)).2).challenges
      = w.challenges
    ∧ ((getCredential os k defaultCredOptions
        ((saveCredential os k u s (CredOptions.mk false false none) w).2)).2).prompts
      = w.prompts := by
  rw [saveCredential_run os k u s (CredOptions.mk false false none) w items hit hev1]
  simp only []
  have hmd := metaValOf_savedMmkv k (CredOptions.mk false false none) w items
  rw [getCredential_run os k defaultCredOptions _
    (some (savedMeta k (CredOptions.mk false false none) w)) hmd]
  simp only []
  have hhe : headEvent
      { w with
        mmkv := savedMmkv k (CredOptions.mk false false none) w items
        keychain := setFun w.keychain (svc k)
          (savedEntry os u s k (CredOptions.mk false false none))
        kcEvents := w.kcEvents.tail
        clock := w.clock.tail.tail } = KcEvent.ok := hev2
  rw [hhe]
  refine ⟨trivial, ?_, ?_, ?_⟩
  · rw [setFun_same]
    rfl
  · simp only [afterGet]
    have hch : kcChallenged
        { w with
          mmkv := savedMmkv k (CredOptions.mk false false none) w items
          keychain := setFun w.keychain (svc k)
            (savedEntry os u s k (CredOptions.mk false false none))
          kcEvents := w.kcEvents.tail
          clock := w.clock.tail.tail }
        (getKcOptions os k (some (savedMeta k (CredOptions.mk false false none) w))
          defaultCredOptions.useBiometrics (promptMsgOf defaultCredOptions)).service
        = false := by
      rw [getKcOptions_service]
      rw [kcChallenged]
      simp only [setFun_same]
      rw [savedEntry_none_ac]
      rfl
    rw [hch]
    rfl
  · simp only [afterGet]
    have hpr : (getKcOptions os k
        (some (savedMeta k (CredOptions.mk false false none) w))
        defaultCredOptions.useBiometrics (promptMsgOf defaultCredOptions)).authenticationPrompt.isSome = false := by
      rw [getKcOptions_prompt]
      rfl
    rw [hpr]
    rfl

def C7w : World := World.mk emptyMm emptyKc [] ["T1", "T2"] none [] []

/-- C7 witness: the round trip evaluated on the empty store. -/
theorem C7_roundtrip_none_policy_witness :
    (saveCredential OS.ios "bank" "alice" "pw1" (CredOptions.mk false false none) C7w).1
      = Except.ok true
    ∧ (getCredential OS.ios "bank" defaultCredOptions
        ((saveCredential OS.ios "bank" "alice" "pw1"
          (CredOptions.mk false false none) C7w).2)).1
      = Except.ok (some (CredResult.mk "alice" "pw1"
          (some (savedMeta "bank" (CredOptions.mk false false none) C7w))))
    ∧ ((getCredential OS.ios "bank" defaultCredOptions
        ((saveCredential OS.ios "bank" "alice" "pw1"
          (CredOptions.mk false false none) C7w).2)).2).challenges = []
    ∧ ((getCredential OS.ios "bank" defaultCredOptions
        ((saveCredential OS.ios "bank" "alice" "pw1"
          (CredOptions.mk false false none) C7w).2)).2).prompts = [] := by
  have h := C7_roundtrip_none_policy OS.ios "bank" "alice" "pw1" C7w []
    (by decide) (by decide) (by decide)
  exact ⟨h.1, h.2.1, h.2.2.1, h.2.2.2⟩

def C5w : World :=
  World.mk
    (setFun (setFun emptyMm "itemsList" (stringifyItems ["a"]))
      ("metadata_" ++ "a") (stringifyMeta (Metadata.mk "T0" "T0" (some "a") false false)))
    (setFun emptyKc (svc "a") (KcEntry.mk "alice" "pw1" none none))
    [] [] none [] []

/-- C5 counterexample: the stored policy of `"a"` is None (both flags
false), yet `getCredential("a", {useBiometrics: true})` attaches an
interactive authentication prompt to the read (the prompt log grows), so the
prompt is not attached "only when the record's policy is not None". -/
theorem C5_counterexample_prompt_for_none_policy :
    metaValOf C5w.mmkv "a"
      = some (some (Metadata.mk "T0" "T0" (some "a") false false))
    ∧ ((getCredential OS.ios "a" (CredOptions.mk true false none) C5w).2).prompts
      = [svc "a"] := by
  decide

/-- C5 amended: for a record whose stored policy is None (both metadata
flags false, secret sealed without access control), `getCredential` never
triggers an interactive challenge, and it attaches an authentication prompt
to the read exactly when the caller passes `useBiometrics`; with default
options the call is a plain read. -/
theorem C5_get_none_policy (os : OS) (key : String) (opts : CredOptions)
    (w : World) (md : Option Metadata)
    (hmd : metaValOf w.mmkv key = some md)
    (hub : metaUseBiometrics md = false)
    (hup : metaUseDevicePasscode md = false)
    (hkc : ∀ en, w.keychain (svc key) = some en → en.accessControl = none) :
    ((getCredential os key opts w).2).challenges = w.challenges
    ∧ ((getCredential os key opts w).2).prompts
      = (if opts.useBiometrics then w.prompts ++ [svc key] else w.prompts) := by
  rw [getCredential_run os key opts w md hmd]
  simp only [afterGet]
  constructor
  · have hch : kcChallenged w
        (getKcOptions os key md opts.useBiometrics (promptMsgOf opts)).service
        = false := by
      rw [getKcOptions_service, kcChallenged]
      rcases hen : w.keychain (svc key) with _ | en
      · rfl
      · simp [hkc en hen]
    rw [hch]
    simp
  · rw [getKcOptions_prompt, hub, hup, getKcOptions_service]
    simp

def C5wB : World :=
  World.mk
    (setFun (setFun emptyMm "itemsList" (stringifyItems ["a"]))
      ("metadata_" ++ "a") (stringifyMeta (Metadata.mk "T0" "T0" (some "a") false false)))
    (setFun emptyKc (svc "a") (KcEntry.mk "alice" "pw1" none none))
    [] [] none [] []

/-- C5 witness: the amended behaviour on a concrete None-policy record, with
default options (plain read) and with `useBiometrics` requested. -/
theorem C5_get_none_policy_witness :
    ((getCredential OS.ios "a" defaultCredOptions C5wB).2).challenges = []
    ∧ ((getCredential OS.ios "a" defaultCredOptions C5wB).2).prompts = []
    ∧ ((getCredential OS.android "a" (CredOptions.mk true false none) C5wB).2).prompts
      = [svc "a"]
    ∧ ((getCredential OS.android "a" (CredOptions.mk true false none) C5wB).2).challenges
      = [] := by
  have h1 := C5_get_none_policy OS.ios "a" defaultCredOptions C5wB
    (some (Metadata.mk "T0" "T0" (some "a") false false)) (by decide) (by decide)
    (by decide) (by decide)
  have h2 := C5_get_none_policy OS.android "a" (CredOptions.mk true false none) C5wB
    (some (Metadata.mk "T0" "T0" (some "a") false false)) (by decide) (by decide)
    (by decide) (by decide)
  exact ⟨h1.1, by simpa using h1.2, by simpa using h2.2, h2.1⟩

def C2w : World :=
  World.mk emptyMm emptyKc
    [KcEvent.ok, KcEvent.throwErr "code: -128, msg: User canceled the operation"]
    ["T1"] none [] []

/-- C2 counterexample: when the interactive read of the throwaway entry
throws (user cancellation is surfaced as a rejected promise), the cleanup
`resetGenericPassword` on line 190 is skipped — there is no `finally` — so
the call returns `false` but the temporary `auth_check_<time>` entry is left
behind in the secret store. -/
theorem C2_counterexample_cancel_leaks_entry :
    (authenticateWithLockscreen OS.ios defaultAuthOptions C2w).1 = Except.ok false
    ∧ (((authenticateWithLockscreen OS.ios defaultAuthOptions C2w).2).keychain
        ("auth_check_" ++ "T1")).isSome = true := by
  decide

/-- C2 amended: the throwaway entry is deleted on the non-throwing exit
paths — read-back success and read-back returning nothing — so whenever no
keychain primitive throws, no `auth_check_…` entry remains afterwards and
the call resolves (to `true` or `false`) rather than throwing.  When the
interactive read throws, the catch still returns `false`, but the throwaway
entry stays behind (see the counterexample). -/
theorem C2_throwaway_cleanup_on_normal_paths (os : OS) (opts : AuthOptions)
    (w : World) (hc : eventsClean w.kcEvents) :
    ((authenticateWithLockscreen os opts w).2).keychain
        ("auth_check_" ++ w.clock.headD "") = none
    ∧ (authenticateWithLockscreen os opts w).1.isOk = true :=
  auth_clean_cleanup os opts w hc

def C2wB : World :=
  World.mk emptyMm emptyKc [KcEvent.ok, KcEvent.retFalse, KcEvent.ok] ["T1"] none [] []

/-- C2 witness: a non-throwing run (the read resolves to nothing) on which
the throwaway entry is removed. -/
theorem C2_throwaway_cleanup_witness :
    ((authenticateWithLockscreen OS.ios defaultAuthOptions C2wB).2).keychain
        ("auth_check_" ++ "T1") = none
    ∧ (authenticateWithLockscreen OS.ios defaultAuthOptions C2wB).1.isOk = true := by
  have h := C2_throwaway_cleanup_on_normal_paths OS.ios defaultAuthOptions C2wB
    (by decide)
  exact ⟨h.1, h.2⟩

/-- C6: the confirmed clear-all-data handler authenticates first and, when
that authentication returns `false` (canceled or failed), aborts before
deleting anything: every MMKV key — all metadata entries and the ItemIndex —
is unchanged, and every vault keychain entry (service
`com.lockscreencreds.example.<key>`) is unchanged. -/
theorem C6_clearAll_aborts_on_failed_auth (os : OS) (w : World)
    (hfalse : (authenticateWithLockscreen os
        (AuthOptions.mk "Authenticate to delete all data" "Cancel" true) w).1
      = Except.ok false) :
    (∀ k2, ((clearAllDataConfirmed os w).2).mmkv k2 = w.mmkv k2)
    ∧ (∀ key, ((clearAllDataConfirmed os w).2).keychain (svc key)
        = w.keychain (svc key)) := by
  have hrun : clearAllDataConfirmed os w =
      (Except.ok (), (authenticateWithLockscreen os
        (AuthOptions.mk "Authenticate to delete all data" "Cancel" true) w).2) := by
    rw [clearAllDataConfirmed, run_tryM, run_bind]
    rcases hauth : authenticateWithLockscreen os
      (AuthOptions.mk "Authenticate to delete all data" "Cancel" true) w with ⟨res, w1⟩
    rw [hauth] at hfalse
    simp only at hfalse
    subst hfalse
    simp [run_pure]
  rw [hrun]
  constructor
  · intro k2
    exact congrFun (auth_mmkv_frame os _ w) k2
  · intro key
    exact auth_keychain_frame os _ w (svc key) (svc_ne_authCheck key)

def C6w : World :=
  World.mk
    (setFun (setFun (setFun (setFun emptyMm "itemsList" (stringifyItems ["a", "b", "c"]))
      ("metadata_" ++ "a") (stringifyMeta (Metadata.mk "T0" "T0" (some "a") false false)))
      ("metadata_" ++ "b") (stringifyMeta (Metadata.mk "T0" "T0" (some "b") false false)))
      ("metadata_" ++ "c") (stringifyMeta (Metadata.mk "T0" "T0" (some "c") false false)))
    (setFun (setFun (setFun emptyKc (svc "a") (KcEntry.mk "u" "p" none none))
      (svc "b") (KcEntry.mk "u" "p" none none))
      (svc "c") (KcEntry.mk "u" "p" none none))
    [KcEvent.ok, KcEvent.retFalse, KcEvent.ok] ["T1"] none [] []

/-- C6 witness: clear-all on a store with three items where the fresh
authentication resolves to `false` — the ItemIndex and the items survive. -/
theorem C6_clearAll_aborts_witness :
    (authenticateWithLockscreen OS.ios
        (AuthOptions.mk "Authenticate to delete all data" "Cancel" true) C6w).1
      = Except.ok false
    ∧ ((clearAllDataConfirmed OS.ios C6w).2).mmkv "itemsList" = C6w.mmkv "itemsList"
    ∧ ((clearAllDataConfirmed OS.ios C6w).2).keychain (svc "a")
      = C6w.keychain (svc "a") := by
  have hf : (authenticateWithLockscreen OS.ios
      (AuthOptions.mk "Authenticate to delete all data" "Cancel" true) C6w).1
    = Except.ok false := by decide
  have h := C6_clearAll_aborts_on_failed_auth OS.ios C6w hf
  exact ⟨hf, h.1 "itemsList", h.2 "a"⟩
